import Mathlib

/-!
Verification of the scale acquisition and ledger core of `balanza.py`
(industrial weighing dashboard).

Shallow embedding conventions:
* Raw serial frames are `List ℕ` of byte values (0..255).
* Python strings are modelled as lists of character codes (`List ℕ`), so
  `bytes.decode('ascii', errors='ignore')` is a filter and
  `errors='replace'` maps undecodable bytes to U+FFFD (65533).
* Python numeric values (floats) are modelled as exact rationals `ℚ`.
  `round(x, 3)` is modelled as decimal round-half-to-even at 3 places,
  which is Python's rounding mode.
* The status strings written to the shared realtime file are modelled by
  the inductive `StatusMsg`, one constructor per distinct status text in
  the source.
* File I/O: a present readable JSON document is `some v`, a missing or
  unreadable one is `none`.
-/

namespace Balanza

/-! ## Character-code predicates and generic list helpers -/

/-- ASCII decimal digit code, i.e. the characters matched by `\d` on the
ASCII-only strings the decoders work with. -/
def isDigitCode (n : ℕ) : Bool := 48 ≤ n && n ≤ 57

/-- The characters removed by Python's default `str.strip()` (the input is
ASCII-only after `decode('ascii', errors='ignore')`). -/
def isPySpace (n : ℕ) : Bool :=
  n == 32 || n == 9 || n == 10 || n == 13 || n == 11 || n == 12

/-- The characters removed by `str.strip('\r\n')`. -/
def isCRLF (n : ℕ) : Bool := n == 13 || n == 10

/-- Remove trailing characters satisfying `p`. -/
def stripTrailing (p : ℕ → Bool) (l : List ℕ) : List ℕ :=
  (l.reverse.dropWhile p).reverse

/-- Remove leading and trailing characters satisfying `p`
(Python `str.strip` semantics). -/
def stripBoth (p : ℕ → Bool) (l : List ℕ) : List ℕ :=
  stripTrailing p (l.dropWhile p)

/-- `bytes.decode('ascii', errors='ignore')`: non-ASCII bytes are dropped. -/
def decodeAsciiIgnore (bs : List ℕ) : List ℕ := bs.filter (fun b => b < 128)

/-- `bytes.decode('ascii', errors='replace')`: non-ASCII bytes become
U+FFFD (code 65533). -/
def decodeAsciiReplace (bs : List ℕ) : List ℕ :=
  bs.map (fun b => if b < 128 then b else 65533)

/-- Value of a run of decimal digit codes, as `int(digits)` reads it. -/
def digitsToNat (ds : List ℕ) : ℕ := ds.foldl (fun a d => 10 * a + (d - 48)) 0

/-- `re.search(r'(\d+)', s)`: the first maximal run of decimal digits,
if any. -/
def firstDigitRun : List ℕ → Option (List ℕ)
  | [] => none
  | c :: cs =>
    if isDigitCode c then some (c :: cs.takeWhile isDigitCode)
    else firstDigitRun cs

/-! ## EL05 decoder (`parse_el05_corregido`) -/

/-- Result dictionary of `parse_el05_corregido` (the `raw`/`hex` echo
fields are omitted; they are cosmetic copies of the input). -/
structure El05Parsed where
  peso_str : List ℕ
  peso_val : ℚ
  digits : List ℕ
  raw_value : ℕ
deriving DecidableEq, Repr

/-- `parse_el05_corregido(data_bytes)`: decode ASCII ignoring errors,
`strip()`, search for the first digit run, interpret it as an integer and
divide by the hard-coded scale factor 10.  Returns `None` when no digits
are found (and on any exception, which the pure model cannot raise). -/
def parse_el05_corregido (data_bytes : List ℕ) : Option El05Parsed :=
  let data_str := stripBoth isPySpace (decodeAsciiIgnore data_bytes)
  match firstDigitRun data_str with
  | some ds =>
    let raw_value := digitsToNat ds
    some { peso_str := data_str
           peso_val := (raw_value : ℚ) / 10
           digits := ds
           raw_value := raw_value }
  | none => none

/-! ## COND decoder (`parse_cond`) -/

/-- Unit indicator letters `K`, `L`, `k`, `l` (regex `[KLkl]`). -/
def isUnitLetter (n : ℕ) : Bool := n == 75 || n == 76 || n == 107 || n == 108

/-- Type indicator letters `G`, `N`, `g`, `n` (regex `[GNgn]`). -/
def isTypeLetter (n : ℕ) : Bool := n == 71 || n == 78 || n == 103 || n == 110

/-- `str.upper()` on a single ASCII character code. -/
def toUpperCode (n : ℕ) : ℕ := if 97 ≤ n && n ≤ 122 then n - 32 else n

/-- Value of the decimal token starting at the head of `s` (head is a
digit): maximal integer digits, then an optional `.`-plus-digits
fractional part, exactly as `(\d+(\.\d+)?)` matches greedily. -/
def numFrom (s : List ℕ) : ℚ :=
  let ip := s.takeWhile isDigitCode
  let rest := s.dropWhile isDigitCode
  match rest with
  | 46 :: r =>
    let fr := r.takeWhile isDigitCode
    if fr.isEmpty then (digitsToNat ip : ℚ)
    else (digitsToNat ip : ℚ) + (digitsToNat fr : ℚ) / 10 ^ fr.length
  | _ => (digitsToNat ip : ℚ)

/-- `re.search(r'(-?\d+(\.\d+)?)', s)`: leftmost match of an optionally
negated decimal number.  A `-` not followed by a digit cannot start a
match, so the scan resumes at the next position. -/
def findNumber : List ℕ → Option ℚ
  | [] => none
  | c :: cs =>
    if isDigitCode c then some (numFrom (c :: cs))
    else if c == 45 then
      match cs with
      | [] => none
      | d :: _ => if isDigitCode d then some (-(numFrom cs)) else findNumber cs
    else findNumber cs

/-- Result dictionary of `parse_cond` (`raw_bytes`/`hex` echo fields
omitted). -/
structure CondParsed where
  payload : List ℕ
  peso_val : Option ℚ
  unidad : Option ℕ
  tipo : Option ℕ
deriving DecidableEq, Repr

/-- Shared tail of `parse_cond` after STX and sign stripping: the final
payload `s`, regex number search multiplied by the consumed sign, and the
unit/type letter searches (both run on the sign-stripped payload). -/
def condOn (s : List ℕ) (sign : ℚ) : CondParsed :=
  { payload := s
    peso_val := (findNumber s).map (fun q => q * sign)
    unidad := (s.find? isUnitLetter).map toUpperCode
    tipo := (s.find? isTypeLetter).map toUpperCode }

/-- `parse_cond(line_bytes)`: decode ASCII with replacement,
`strip('\r\n')`, drop a single leading STX (0x02), consume a leading `-`
as the sign, then search for the first decimal number and the optional
unit/type letters. -/
def parse_cond (line_bytes : List ℕ) : CondParsed :=
  let s0 := stripBoth isCRLF (decodeAsciiReplace line_bytes)
  let s1 := if s0.head? = some 2 then s0.tail else s0
  if s1.head? = some 45 then condOn s1.tail (-1) else condOn s1 1

/-! ## Shared realtime state store -/

/-- The distinct status texts written to the shared realtime file, one
constructor per string in the source:
`detenido` = "Detenido", `iniciando` = "Iniciando...",
`leyendo p` = "Leyendo: {p:.2f} kg", `leyendoSim` = "Leyendo (Simulación)",
`esperandoDatos` = "Esperando datos válidos", `datoInvalido` = "Dato inválido",
`conectado` = "Conectado a {port}", `errorPuerto` = "Error puerto: {e}",
`errorGenerico` = "Error: {e}", `desconectado` = "Desconectado". -/
inductive StatusMsg where
  | detenido
  | iniciando
  | leyendo (peso : ℚ)
  | leyendoSim
  | esperandoDatos
  | datoInvalido
  | conectado
  | errorPuerto
  | errorGenerico
  | desconectado
deriving DecidableEq, Repr

/-- The shared acquisition state document
`{ peso, reading, last_update, status }`. -/
structure RealtimeData where
  peso : ℚ
  reading : Bool
  last_update : ℕ
  status : StatusMsg
deriving DecidableEq, Repr

/-- `read_realtime_data()`: the stored document when present and
readable (`doc = some data`), otherwise the default stopped, zero-weight
value.  `now` stands for `time.time()`. -/
def read_realtime_data (doc : Option RealtimeData) (now : ℕ) : RealtimeData :=
  match doc with
  | some data => data
  | none =>
    { peso := 0
      reading := false
      last_update := now
      status := .detenido }

/-- `write_realtime_data(peso, reading, status)`: full replacement,
stamped with the current time. -/
def write_realtime_data (peso : ℚ) (reading : Bool) (status : StatusMsg)
    (now : ℕ) : RealtimeData :=
  { peso := peso
    reading := reading
    last_update := now
    status := status }

/-! ## Acquisition loop (`continuous_reading`) -/

/-- What the serial device does during one read of the real-mode inner
loop: deliver a frame, raise `serial.SerialException`, or raise some
other exception. -/
inductive SerialEvent where
  | frame (raw : List ℕ)
  | serialErr
  | otherErr
deriving DecidableEq, Repr

/-- State of the real-mode loop: whether the serial handle is open,
whether the loop has exited (run the `finally` block and returned), and
the current content of the shared realtime file. -/
structure LoopState where
  ser_open : Bool
  exited : Bool
  shared : RealtimeData
deriving DecidableEq, Repr

/-- One iteration of the real-mode (`SIMULATE = False`) inner `while True`
loop of `continuous_reading`, for an already-open port.

* If the shared `reading` flag is false the loop sleeps and `continue`s:
  nothing is written and the port stays open.
* On a delivered frame it decodes per `formato` and publishes the reading
  (or a zero-weight diagnostic) with `reading = True`.
* On `serial.SerialException` it publishes an error, `break`s, and the
  `finally` block closes the port and publishes `(0.0, False,
  "Desconectado")`; the resulting shared state is that final write.
* On any other exception it publishes `(0.0, True, "Error: ...")`,
  sleeps, and continues with the port still open. -/
def stepReal (formato : String) (st : LoopState) (ev : SerialEvent)
    (now : ℕ) : LoopState :=
  if st.exited then st
  else if st.shared.reading = false then st
  else
    match ev with
    | .frame raw =>
      if formato = "el05" then
        match parse_el05_corregido raw with
        | some parsed =>
          { st with shared := write_realtime_data parsed.peso_val true (.leyendo parsed.peso_val) now }
        | none =>
          { st with shared := write_realtime_data 0 true .esperandoDatos now }
      else if formato = "cond" then
        match (parse_cond raw).peso_val with
        | some peso =>
          { st with shared := write_realtime_data peso true (.leyendo peso) now }
        | none =>
          { st with shared := write_realtime_data 0 true .datoInvalido now }
      else st
    | .serialErr =>
      { ser_open := false
        exited := true
        shared := write_realtime_data 0 false .desconectado now }
    | .otherErr =>
      { st with shared := write_realtime_data 0 true .errorGenerico now }

/-- One iteration of the simulation-mode (`SIMULATE = True`) loop of
`continuous_reading`: if the shared `reading` flag is false, sleep and
continue (no write); otherwise publish the synthetic weight with
`write_realtime_data(peso, False, "Leyendo (Simulación)")` — note the
literal `False` passed for the `reading` flag in the source. -/
def stepSim (shared : RealtimeData) (peso : ℚ) (now : ℕ) : RealtimeData :=
  if shared.reading then write_realtime_data peso false .leyendoSim now
  else shared

/-! ## Catalog -/

/-- `PRODUCT_TO_WEIGHT`: box weight (kg) per product. -/
def PRODUCT_TO_WEIGHT : List (String × ℚ) :=
  [("CREMOSO LAS TRES ESTRELLAS", 0.35),
   ("CREMOSO SABORLAC", 0.35),
   ("CREMOSO MEDIA HORMA", 0.35),
   ("POR SALUT LAS TRES ESTRELLAS", 0.35),
   ("P.SALUT CON CHIA Y LINO", 0.4),
   ("PROQUESO-FIT", 0.4),
   ("TYBO LAS TRES", 0.4),
   ("MUZZARELLA SABORLAC", 0.4),
   ("MUZZARELLA LAS TRES ESTRELLAS", 0.4),
   ("MOZZARELLA BLOCK", 0.4),
   ("PATEGRAS SABORLAC", 0.35),
   ("AZUL LAS TRES ESTRELLAS", 0.28),
   ("CHEDDAR", 0.4),
   ("GRUYERITO EN CUÑA", 0.55),
   ("ROMANITO", 0.3),
   ("SARDO LAS TRES ESTRELLAS", 0.3),
   ("SARDO SABORLAC", 0.3),
   ("REGGIANITO HORMA", 0.35),
   ("REGGIANITO BLOCK", 0.4),
   ("PROVOLONE HILADO", 0.35),
   ("PROVOLONE HILADO EN FETAS", 0.35),
   ("RICOTTA EN HORMA", 0.35),
   ("RICOTTA CABRAL", 0.38),
   ("SARDO SABORLAC BLOCK", 0.4)]

/-- `TRAY_WEIGHTS`: tray weight (kg) per tray type. -/
def TRAY_WEIGHTS : List (String × ℚ) :=
  [("Bandeja de Cremoso", 1.7),
   ("Bandeja de Barra", 1.4),
   ("Bandeja de Sardo", 2.0),
   ("Sin Bandeja", 0.0)]

/-! ## Rounding (Python `round(x, 3)`) -/

/-- Round a rational to the nearest integer, ties to even (Python's
`round` on the exact value). -/
def rhe (x : ℚ) : ℤ :=
  let f := ⌊x⌋
  let r := x - (f : ℚ)
  if r < 1 / 2 then f
  else if r = 1 / 2 then (if f % 2 = 0 then f else f + 1)
  else f + 1

/-- Python `round(x, 3)` on the exact rational value. -/
def round3 (x : ℚ) : ℚ := (rhe (x * 1000) : ℚ) / 1000

/-! ## Weight ledger: records, save and edit handlers -/

/-- One entry of `st.session_state.history_list` / an expedition's
`records` list. -/
structure Registro where
  producto : String
  cajas : ℕ
  bandeja : String
  cant_bandeja : ℕ
  pallet : ℚ
  bruto : ℚ
  neto : ℚ
  lote : String
  hormas : ℕ
  timestamp : String
deriving DecidableEq, Repr

/-- The tab1 "Guardar Registro" handler.  The box and tray weights come
from dict lookups on the catalogs (a missing key would raise `KeyError`,
modelled as `none`; the UI only offers catalog keys).  The entry — with
`bruto` and `neto` stored exactly as computed, unrounded — is appended
only when `peso_bruto > 0`; otherwise only a warning is shown and the
history is unchanged. -/
def guardarRegistro (history_list : List Registro) (producto : String)
    (cajas : ℕ) (bandeja : String) (cant_bandejas : ℕ) (pallet : ℚ)
    (peso_bruto : ℚ) (lote : String) (hormas : ℕ) (ts : String) :
    Option (List Registro) :=
  match PRODUCT_TO_WEIGHT.lookup producto, TRAY_WEIGHTS.lookup bandeja with
  | some peso_caja, some peso_bandeja =>
    let peso_cajas : ℚ := (cajas : ℚ) * peso_caja
    let peso_bandejas : ℚ := (cant_bandejas : ℚ) * peso_bandeja
    let peso_neto := peso_bruto - pallet - peso_cajas - peso_bandejas
    if 0 < peso_bruto then
      some (history_list ++
        [{ producto := producto
           cajas := cajas
           bandeja := bandeja
           cant_bandeja := cant_bandejas
           pallet := pallet
           bruto := peso_bruto
           neto := peso_neto
           lote := lote
           hormas := hormas
           timestamp := ts }])
    else some history_list
  | _, _ => none

/-- The "Guardar Cambios" submit of `mostrar_formulario_edicion`: builds
the replacement record, with `bruto` and `neto` rounded to 3 decimal
places and the original timestamp kept. -/
def guardarCambios (registro_original : Registro) (producto : String)
    (cajas : ℕ) (bandeja : String) (cant_bandejas : ℕ) (pallet : ℚ)
    (lote : String) (hormas : ℕ) (bruto : ℚ) : Option Registro :=
  match PRODUCT_TO_WEIGHT.lookup producto, TRAY_WEIGHTS.lookup bandeja with
  | some pc, some pb =>
    let peso_cajas : ℚ := (cajas : ℚ) * pc
    let peso_bandejas : ℚ := (cant_bandejas : ℚ) * pb
    let neto := bruto - pallet - peso_cajas - peso_bandejas
    some { producto := producto
           cajas := cajas
           bandeja := bandeja
           cant_bandeja := cant_bandejas
           pallet := pallet
           bruto := round3 bruto
           neto := round3 neto
           lote := lote
           hormas := hormas
           timestamp := registro_original.timestamp }
  | _, _ => none

/-- `editar_registro(lista, index, nuevo_registro)`: in-range replacement
(then persists and reruns the script); out of range, no mutation. -/
def editar_registro (lista : List Registro) (index : ℕ)
    (nuevo_registro : Registro) : List Registro :=
  if index < lista.length then lista.set index nuevo_registro else lista

/-- `eliminar_registro(lista, index)`: in-range removal (then persists
and reruns the script); out of range, no mutation. -/
def eliminar_registro (lista : List Registro) (index : ℕ) : List Registro :=
  if index < lista.length then lista.eraseIdx index else lista

/-! ## Expeditions -/

/-- One entry of `st.session_state.expeditions`. -/
structure Expedicion where
  date : String
  name : String
  total : ℚ
  records : List Registro
deriving DecidableEq, Repr

/-- The tab2 "Archivar → Expedición" handler.  The surrounding
`if st.session_state.history_list:` guard (tab2 renders the button only
for a non-empty history) makes archiving an empty history a no-op. -/
def archivarExpedicion (expeditions : List Expedicion)
    (history_list : List Registro) (today : String) :
    List Expedicion × List Registro :=
  if history_list.isEmpty then (expeditions, history_list)
  else
    let next_num := (expeditions.filter (fun e => e.date == today)).length + 1
    let exp_name := today ++ " - Expedición " ++ toString next_num
    let total_neto := (history_list.map Registro.neto).sum
    (expeditions ++
      [{ date := today
         name := exp_name
         total := total_neto
         records := history_list }],
     [])

/-- The tab3 per-record "Borrar" handler for expedition `i`, record
`idx`.  It calls `eliminar_registro(expeditions[i]['records'], idx)` and
only afterwards recomputes `expeditions[i]['total']`; but for an in-range
index `eliminar_registro` ends with `st.rerun()`, which aborts the script
run, so the recomputation line is never reached and the stored total is
left unchanged.  Only for an out-of-range index (where
`eliminar_registro` returns normally) does the recomputation execute. -/
def borrarRegistroExpedicion (expeditions : List Expedicion) (i idx : ℕ) :
    List Expedicion :=
  match expeditions[i]? with
  | none => expeditions
  | some exp =>
    if idx < exp.records.length then
      expeditions.set i { exp with records := exp.records.eraseIdx idx }
    else
      expeditions.set i
        { exp with total := (exp.records.map Registro.neto).sum }

/-- The expedition branch of `mostrar_formulario_edicion`'s save:
`editar_registro(st.session_state.expeditions[exp_index]['records'],
index, nuevo)`.  No total recomputation is performed on this path. -/
def editarRegistroExpedicion (expeditions : List Expedicion) (i idx : ℕ)
    (nuevo : Registro) : List Expedicion :=
  match expeditions[i]? with
  | none => expeditions
  | some exp =>
    expeditions.set i { exp with records := editar_registro exp.records idx nuevo }

/-! ## Helper lemmas on the list plumbing -/

theorem takeWhile_eq_self_of {p : ℕ → Bool} :
    ∀ {l : List ℕ}, (∀ x ∈ l, p x = true) → l.takeWhile p = l := by
  intro l
  induction l with
  | nil => intro _; rfl
  | cons a t ih =>
    intro h
    have ha : p a = true := h a (List.mem_cons_self a t)
    simp [List.takeWhile_cons, ha, ih (fun x hx => h x (List.mem_cons_of_mem a hx))]

theorem dropWhile_eq_self_of {p : ℕ → Bool} :
    ∀ {l : List ℕ}, (∀ x ∈ l, p x = false) → l.dropWhile p = l := by
  intro l
  induction l with
  | nil => intro _; rfl
  | cons a t ih =>
    intro h
    have ha : p a = false := h a (List.mem_cons_self a t)
    simp [List.dropWhile_cons, ha]

theorem filter_eq_self_of {p : ℕ → Bool} :
    ∀ {l : List ℕ}, (∀ x ∈ l, p x = true) → l.filter p = l := by
  intro l
  induction l with
  | nil => intro _; rfl
  | cons a t ih =>
    intro h
    have ha : p a = true := h a (List.mem_cons_self a t)
    simp [List.filter_cons, ha, ih (fun x hx => h x (List.mem_cons_of_mem a hx))]

theorem mem_of_mem_dropWhile {p : ℕ → Bool} :
    ∀ {l : List ℕ} {x : ℕ}, x ∈ l.dropWhile p → x ∈ l := by
  intro l
  induction l with
  | nil => intro x hx; simp [List.dropWhile] at hx
  | cons a t ih =>
    intro x hx
    by_cases ha : p a = true
    · exact List.mem_cons_of_mem a (ih (by simpa [List.dropWhile_cons, ha] using hx))
    · simpa [List.dropWhile_cons, Bool.of_not_eq_true ha] using hx

theorem mem_of_mem_stripBoth {p : ℕ → Bool} {l : List ℕ} {x : ℕ}
    (hx : x ∈ stripBoth p l) : x ∈ l := by
  unfold stripBoth stripTrailing at hx
  have h1 : x ∈ (l.dropWhile p).reverse := mem_of_mem_dropWhile (by simpa using hx)
  exact mem_of_mem_dropWhile (by simpa using h1)

theorem firstDigitRun_eq_none_of :
    ∀ {l : List ℕ}, (∀ x ∈ l, isDigitCode x = false) → firstDigitRun l = none := by
  intro l
  induction l with
  | nil => intro _; rfl
  | cons a t ih =>
    intro h
    have ha : isDigitCode a = false := h a (List.mem_cons_self a t)
    simp [firstDigitRun, ha, ih (fun x hx => h x (List.mem_cons_of_mem a hx))]

theorem isPySpace_eq_false_of_digit {d : ℕ} (hd : isDigitCode d = true) :
    isPySpace d = false := by
  have h48 : 48 ≤ d := by
    have := hd
    simp [isDigitCode, Bool.and_eq_true] at this
    exact this.1
  simp only [isPySpace]
  have h32 : (d == 32) = false := by simp; omega
  have h9 : (d == 9) = false := by simp; omega
  have h10 : (d == 10) = false := by simp; omega
  have h13 : (d == 13) = false := by simp; omega
  have h11 : (d == 11) = false := by simp; omega
  have h12 : (d == 12) = false := by simp; omega
  simp [h32, h9, h10, h13, h11, h12]


/-! ## Claim theorems -/

/-- Helper: a digit character code lies between 48 and 57. -/
theorem isDigitCode_bounds {d : ℕ} (hd : isDigitCode d = true) :
    48 ≤ d ∧ d ≤ 57 := by
  simpa [isDigitCode, Bool.and_eq_true, decide_eq_true_eq] using hd

/-- Helper: `strip()` on `'M' + digits + '\\r'` keeps `'M' + digits`. -/
theorem stripBoth_M_digits_CR (ds : List ℕ) (hne : ds ≠ [])
    (hds : ∀ d ∈ ds, isDigitCode d = true) :
    stripBoth isPySpace (77 :: ds ++ [13]) = 77 :: ds := by
  obtain ⟨a, t, hat⟩ : ∃ a t, ds.reverse = a :: t := by
    cases hrev : ds.reverse with
    | nil =>
      exact absurd (by simpa using congrArg List.reverse hrev) hne
    | cons a t => exact ⟨a, t, rfl⟩
  have ha_mem : a ∈ ds := by
    have h1 : a ∈ ds.reverse := by rw [hat]; exact List.mem_cons_self a t
    simpa using h1
  have haps : isPySpace a = false :=
    isPySpace_eq_false_of_digit (hds a ha_mem)
  have hds_eq : ds = t.reverse ++ [a] := by
    have h2 := congrArg List.reverse hat
    simpa using h2
  have h1 : List.dropWhile isPySpace (77 :: ds ++ [13]) = 77 :: ds ++ [13] := by
    simp [List.dropWhile_cons, isPySpace]
  have h2 : (77 :: ds ++ [13]).reverse = 13 :: (ds.reverse ++ [77]) := by
    simp
  have h3 : List.dropWhile isPySpace (13 :: (ds.reverse ++ [77])) =
      a :: (t ++ [77]) := by
    have h13 : isPySpace 13 = true := rfl
    simp only [List.dropWhile_cons, h13, if_true]
    rw [hat, List.cons_append]
    simp [List.dropWhile_cons, haps]
  have h4 : (a :: (t ++ [77])).reverse = 77 :: ds := by
    simp [hds_eq]
  simp only [stripBoth, stripTrailing, h1, h2, h3, h4]

/-- C1: for every byte sequence `b'M' + digits + b'\\r'` with a non-empty
run of ASCII digits, `parse_el05_corregido` returns a successful reading
whose `peso_val` is `int(digits) / 10` (and whose `digits`/`raw_value`
fields record the run), i.e. a valid reading with
`weight_kg = int(digits) / 10.0`. -/
theorem el05_digit_frames_decode (ds : List ℕ) (hne : ds ≠ [])
    (hds : ∀ d ∈ ds, isDigitCode d = true) :
    parse_el05_corregido (77 :: ds ++ [13]) =
      some { peso_str := 77 :: ds
             peso_val := (digitsToNat ds : ℚ) / 10
             digits := ds
             raw_value := digitsToNat ds } := by
  have hfilter : decodeAsciiIgnore (77 :: ds ++ [13]) = 77 :: ds ++ [13] := by
    apply filter_eq_self_of
    intro x hx
    simp only [decide_eq_true_eq]
    rcases List.mem_cons.mp hx with rfl | hx2
    · omega
    rcases List.mem_append.mp hx2 with hx3 | hx4
    · have := (isDigitCode_bounds (hds x hx3)).2
      omega
    · have hx13 : x = 13 := by simpa using hx4
      omega
  have hrun : firstDigitRun (77 :: ds) = some ds := by
    simp only [firstDigitRun, show isDigitCode 77 = false from rfl]
    simp only [Bool.false_eq_true, if_false]
    cases ds with
    | nil => exact absurd rfl hne
    | cons d rest =>
      have hd : isDigitCode d = true := hds d (List.mem_cons_self d rest)
      simp only [firstDigitRun, hd, if_true]
      rw [takeWhile_eq_self_of (fun x hx => hds x (List.mem_cons_of_mem d hx))]
  unfold parse_el05_corregido
  rw [hfilter, stripBoth_M_digits_CR ds hne hds]
  simp [hrun]

/-- C1 witness: `b'M000010\\r'` decodes to weight 1.0. -/
theorem el05_digit_frames_decode_witness :
    ([48, 48, 48, 48, 49, 48] : List ℕ) ≠ [] ∧
    (∀ d ∈ ([48, 48, 48, 48, 49, 48] : List ℕ), isDigitCode d = true) ∧
    parse_el05_corregido [77, 48, 48, 48, 48, 49, 48, 13] =
      some { peso_str := [77, 48, 48, 48, 48, 49, 48]
             peso_val := 1
             digits := [48, 48, 48, 48, 49, 48]
             raw_value := 10 } := by
  refine ⟨by decide, by decide, ?_⟩
  have h := el05_digit_frames_decode [48, 48, 48, 48, 49, 48]
    (by decide) (by decide)
  have h10 : digitsToNat [48, 48, 48, 48, 49, 48] = 10 := rfl
  rw [h10] at h
  rw [show ([77, 48, 48, 48, 48, 49, 48, 13] : List ℕ) =
    77 :: [48, 48, 48, 48, 49, 48] ++ [13] from rfl, h]
  norm_num

/-- C9: for every byte sequence containing no ASCII digit characters,
`parse_el05_corregido` returns the no-digits failure result `none`
(the `else` branch of the digit search), not a crash. -/
theorem el05_no_digits_fails (bs : List ℕ)
    (h : ∀ b ∈ bs, isDigitCode b = false) :
    parse_el05_corregido bs = none := by
  have hnone :
      firstDigitRun (stripBoth isPySpace (decodeAsciiIgnore bs)) = none := by
    apply firstDigitRun_eq_none_of
    intro x hx
    have hx2 : x ∈ decodeAsciiIgnore bs := mem_of_mem_stripBoth hx
    exact h x (List.mem_filter.mp hx2).1
  unfold parse_el05_corregido
  simp [hnone]

/-- C9 witness: `b'M\\r'` has no digits and fails with `none`. -/
theorem el05_no_digits_fails_witness :
    (∀ b ∈ ([77, 13] : List ℕ), isDigitCode b = false) ∧
    parse_el05_corregido [77, 13] = none :=
  ⟨by decide, el05_no_digits_fails [77, 13] (by decide)⟩

/-- C8: when the shared acquisition state document is missing or
unreadable (`doc = none`), `read_realtime_data` does not fail but returns
the default stopped, zero-weight value: weight 0.0, not acquiring,
status "Detenido". -/
theorem realtime_default_on_missing (now : ℕ) :
    read_realtime_data none now =
      { peso := 0, reading := false, last_update := now,
        status := .detenido } ∧
    (read_realtime_data none now).peso = 0 ∧
    (read_realtime_data none now).reading = false ∧
    (read_realtime_data none now).status = .detenido :=
  ⟨rfl, rfl, rfl, rfl⟩


/-- Helper: `decode('ascii', errors='replace')` is the identity on
all-ASCII byte sequences. -/
theorem decodeAsciiReplace_eq_self_of :
    ∀ {bs : List ℕ}, (∀ x ∈ bs, x < 128) → decodeAsciiReplace bs = bs := by
  intro bs
  induction bs with
  | nil => intro _; rfl
  | cons a t ih =>
    intro h
    have ha : a < 128 := h a (List.mem_cons_self a t)
    simp only [decodeAsciiReplace, List.map_cons, if_pos ha]
    have ht := ih (fun x hx => h x (List.mem_cons_of_mem a hx))
    simp only [decodeAsciiReplace] at ht
    rw [ht]

/-- Helper: `strip` removes nothing when no character qualifies. -/
theorem stripBoth_eq_self_of {p : ℕ → Bool} {l : List ℕ}
    (h : ∀ x ∈ l, p x = false) : stripBoth p l = l := by
  unfold stripBoth stripTrailing
  rw [dropWhile_eq_self_of h,
    dropWhile_eq_self_of (fun x hx => h x (List.mem_reverse.mp hx)),
    List.reverse_reverse]

/-- C8 witness: the default read evaluated at time 7. -/
theorem realtime_default_on_missing_witness :
    read_realtime_data none 7 =
      { peso := 0, reading := false, last_update := 7,
        status := .detenido } ∧
    (read_realtime_data none 7).peso = 0 ∧
    (read_realtime_data none 7).reading = false ∧
    (read_realtime_data none 7).status = .detenido :=
  realtime_default_on_missing 7

/-- C7: the COND decoder strips trailing CR/LF and a single leading 0x02
byte, applies the consumed leading sign to the first decimal substring,
and extracts the optional unit (K/L) and type (G/N) letters
case-insensitively.  Concretely, `b'-012.50KG\\r\\n'` yields weight
-12.5 with unit `K` (code 75) and a present (valid) weight, and
`b'\\x02007.30N\\n'` yields weight 7.30 with tipo `N` (code 78);
in general a leading 0x02 in front of a clean frame is stripped without
affecting any output field. -/
theorem cond_decoder_spec :
    (parse_cond [45, 48, 49, 50, 46, 53, 48, 75, 71, 13, 10] =
      { payload := [48, 49, 50, 46, 53, 48, 75, 71]
        peso_val := some (-25 / 2)
        unidad := some 75
        tipo := some 71 }) ∧
    (parse_cond [2, 48, 48, 55, 46, 51, 48, 78, 10] =
      { payload := [48, 48, 55, 46, 51, 48, 78]
        peso_val := some (73 / 10)
        unidad := none
        tipo := some 78 }) ∧
    (∀ bs : List ℕ, (∀ b ∈ bs, b < 128 ∧ b ≠ 13 ∧ b ≠ 10) →
      bs.head? ≠ some 2 → parse_cond (2 :: bs) = parse_cond bs) := by
  refine ⟨?_, ?_, ?_⟩
  · simp [parse_cond, decodeAsciiReplace, stripBoth, stripTrailing,
      isCRLF, condOn, findNumber, numFrom, digitsToNat, isDigitCode,
      isUnitLetter, isTypeLetter, toUpperCode, List.find?]
    all_goals norm_num
  · simp [parse_cond, decodeAsciiReplace, stripBoth, stripTrailing,
      isCRLF, condOn, findNumber, numFrom, digitsToNat, isDigitCode,
      isUnitLetter, isTypeLetter, toUpperCode, List.find?]
    all_goals norm_num
  · intro bs hb hh
    have hnc : ∀ x ∈ bs, isCRLF x = false := by
      intro x hx
      have hx3 := hb x hx
      simp only [isCRLF, Bool.or_eq_false_iff, beq_eq_false_iff_ne, ne_eq]
      exact ⟨hx3.2.1, hx3.2.2⟩
    have hdec : decodeAsciiReplace bs = bs :=
      decodeAsciiReplace_eq_self_of (fun x hx => (hb x hx).1)
    have hdec2 : decodeAsciiReplace (2 :: bs) = 2 :: bs := by
      simp only [decodeAsciiReplace, List.map_cons]
      norm_num
      simp only [decodeAsciiReplace] at hdec
      rw [hdec]
    have hstrip : stripBoth isCRLF bs = bs := stripBoth_eq_self_of hnc
    have hstrip2 : stripBoth isCRLF (2 :: bs) = 2 :: bs := by
      apply stripBoth_eq_self_of
      intro x hx
      rcases List.mem_cons.mp hx with rfl | hx2
      · rfl
      · exact hnc x hx2
    unfold parse_cond
    rw [hdec, hdec2, hstrip, hstrip2]
    simp only [List.head?_cons, if_pos rfl, List.tail_cons, if_neg hh]
    simp

/-- C7 witness: the STX-stripping conjunct applied to the frame `b'0'`:
`b'\\x020'` and `b'0'` decode identically. -/
theorem cond_decoder_spec_witness :
    (∀ b ∈ ([48] : List ℕ), b < 128 ∧ b ≠ 13 ∧ b ≠ 10) ∧
    ([48] : List ℕ).head? ≠ some 2 ∧
    parse_cond [2, 48] = parse_cond [48] :=
  ⟨by decide, by decide, cond_decoder_spec.2.2 [48] (by decide) (by decide)⟩


/-- Sample record with net weight 1 kg, for concrete instantiations. -/
def regUnit : Registro :=
  { producto := "CHEDDAR", cajas := 0, bandeja := "Sin Bandeja"
    cant_bandeja := 0, pallet := 0, bruto := 1, neto := 1
    lote := "", hormas := 0, timestamp := "t1" }

/-- Sample record with net weight 2 kg, for concrete instantiations. -/
def regDos : Registro :=
  { producto := "CHEDDAR", cajas := 0, bandeja := "Sin Bandeja"
    cant_bandeja := 0, pallet := 0, bruto := 2, neto := 2
    lote := "", hormas := 0, timestamp := "t2" }

/-- C4 counterexample: the tab1 initial-save handler stores the net
weight unrounded.  With gross 0.1234 and all tares zero, the persisted
record's `neto` is 0.1234 itself, which differs from
`round(gross - pallet - boxes*w - trays*tw, 3) = 0.123`, refuting the
claim that every persisted record stores the rounded net. -/
theorem initial_save_net_not_rounded :
    guardarRegistro [] "CHEDDAR" 0 "Sin Bandeja" 0 0 (1234 / 10000) "" 0 "t" =
      some [{ producto := "CHEDDAR"
              cajas := 0
              bandeja := "Sin Bandeja"
              cant_bandeja := 0
              pallet := 0
              bruto := 1234 / 10000
              neto := 1234 / 10000
              lote := ""
              hormas := 0
              timestamp := "t" }] ∧
    (1234 / 10000 : ℚ) ≠
      round3 ((1234 / 10000 : ℚ) - 0 - (0 : ℕ) * (2 / 5) - (0 : ℕ) * 0) := by
  constructor
  · simp [guardarRegistro, PRODUCT_TO_WEIGHT, TRAY_WEIGHTS, List.lookup]
  · have hf : (⌊((1234 / 10000 : ℚ) - 0 - (0 : ℕ) * (2 / 5) -
        (0 : ℕ) * 0) * 1000⌋ : ℤ) = 123 := by
      rw [Int.floor_eq_iff]
      norm_num
    simp [round3, rhe, hf]
    norm_num [Int.fract]

/-- C4 (amended): the edit path stores
`net = round(gross - pallet - boxes*w - trays*tw, 3)` (and gross rounded
to 3 places), while the tab1 initial-save path stores gross and net
unrounded, with net exactly `gross - pallet - boxes*w - trays*tw`;
on the initial-save path, recomputing the unrounded formula from the
stored fields reproduces the stored `neto` exactly. -/
theorem net_weight_storage_paths
    (orig : Registro) (producto : String) (cajas : ℕ) (bandeja : String)
    (cant_bandejas : ℕ) (pallet : ℚ) (lote : String) (hormas : ℕ)
    (bruto : ℚ) (pc pb : ℚ) (hist : List Registro) (ts : String)
    (hpc : PRODUCT_TO_WEIGHT.lookup producto = some pc)
    (hpb : TRAY_WEIGHTS.lookup bandeja = some pb) :
    (guardarCambios orig producto cajas bandeja cant_bandejas pallet lote
        hormas bruto =
      some { producto := producto
             cajas := cajas
             bandeja := bandeja
             cant_bandeja := cant_bandejas
             pallet := pallet
             bruto := round3 bruto
             neto := round3 (bruto - pallet - (cajas : ℚ) * pc -
               (cant_bandejas : ℚ) * pb)
             lote := lote
             hormas := hormas
             timestamp := orig.timestamp }) ∧
    (0 < bruto →
      ∃ r : Registro,
        guardarRegistro hist producto cajas bandeja cant_bandejas pallet
          bruto lote hormas ts = some (hist ++ [r]) ∧
        r.neto = bruto - pallet - (cajas : ℚ) * pc -
          (cant_bandejas : ℚ) * pb ∧
        r.bruto = bruto ∧ r.pallet = pallet ∧
        r.neto = r.bruto - r.pallet - (r.cajas : ℚ) * pc -
          (r.cant_bandeja : ℚ) * pb) := by
  constructor
  · unfold guardarCambios
    rw [hpc, hpb]
  · intro hpos
    refine ⟨{ producto := producto
              cajas := cajas
              bandeja := bandeja
              cant_bandeja := cant_bandejas
              pallet := pallet
              bruto := bruto
              neto := bruto - pallet - (cajas : ℚ) * pc -
                (cant_bandejas : ℚ) * pb
              lote := lote
              hormas := hormas
              timestamp := ts }, ?_, rfl, rfl, rfl, rfl⟩
    unfold guardarRegistro
    rw [hpc, hpb]
    simp [hpos]

/-- C4 witness: both storage paths evaluated for CHEDDAR, 10 boxes,
no trays, pallet 5 kg, gross 100 kg. -/
theorem net_weight_storage_paths_witness :
    PRODUCT_TO_WEIGHT.lookup "CHEDDAR" = some (2 / 5) ∧
    TRAY_WEIGHTS.lookup "Sin Bandeja" = some 0 ∧
    (guardarCambios regUnit "CHEDDAR" 10 "Sin Bandeja" 0 5 "" 0 100 =
      some { producto := "CHEDDAR"
             cajas := 10
             bandeja := "Sin Bandeja"
             cant_bandeja := 0
             pallet := 5
             bruto := round3 100
             neto := round3 (100 - 5 - (10 : ℕ) * (2 / 5) - (0 : ℕ) * 0)
             lote := ""
             hormas := 0
             timestamp := regUnit.timestamp }) ∧
    (∃ r : Registro,
      guardarRegistro [] "CHEDDAR" 10 "Sin Bandeja" 0 5 100 "" 0 "t" =
        some ([] ++ [r]) ∧
      r.neto = 100 - 5 - (10 : ℕ) * (2 / 5) - (0 : ℕ) * 0 ∧
      r.bruto = 100 ∧ r.pallet = 5 ∧
      r.neto = r.bruto - r.pallet - (r.cajas : ℚ) * (2 / 5) -
        (r.cant_bandeja : ℚ) * 0) := by
  have hpc : PRODUCT_TO_WEIGHT.lookup "CHEDDAR" = some (2 / 5) := by
    simp [PRODUCT_TO_WEIGHT, List.lookup]
    norm_num
  have hpb : TRAY_WEIGHTS.lookup "Sin Bandeja" = some 0 := by
    simp [TRAY_WEIGHTS, List.lookup]
    norm_num
  have h := net_weight_storage_paths regUnit "CHEDDAR" 10 "Sin Bandeja" 0 5
    "" 0 100 (2 / 5) 0 [] "t" hpc hpb
  exact ⟨hpc, hpb, h.1, h.2 (by norm_num)⟩

/-- C10: the tab1 "Guardar Registro" handler appends a record to the
active history only when the gross weight is strictly positive; when the
gross weight is 0 or negative no record is appended and the history is
returned unchanged. -/
theorem save_requires_positive_gross
    (hist : List Registro) (producto : String) (cajas : ℕ) (bandeja : String)
    (cant_bandejas : ℕ) (pallet bruto : ℚ) (lote : String) (hormas : ℕ)
    (ts : String) (pc pb : ℚ)
    (hpc : PRODUCT_TO_WEIGHT.lookup producto = some pc)
    (hpb : TRAY_WEIGHTS.lookup bandeja = some pb) :
    (0 < bruto →
      guardarRegistro hist producto cajas bandeja cant_bandejas pallet bruto
        lote hormas ts =
      some (hist ++
        [{ producto := producto, cajas := cajas, bandeja := bandeja
           cant_bandeja := cant_bandejas, pallet := pallet, bruto := bruto
           neto := bruto - pallet - (cajas : ℚ) * pc - (cant_bandejas : ℚ) * pb
           lote := lote, hormas := hormas, timestamp := ts }])) ∧
    (bruto ≤ 0 →
      guardarRegistro hist producto cajas bandeja cant_bandejas pallet bruto
        lote hormas ts = some hist) := by
  constructor
  · intro h
    unfold guardarRegistro
    rw [hpc, hpb]
    simp [h]
  · intro h
    unfold guardarRegistro
    rw [hpc, hpb]
    simp [not_lt.mpr h]

/-- C10 witness: gross 100 is appended, gross 0 leaves the history
unchanged. -/
theorem save_requires_positive_gross_witness :
    ((0 : ℚ) < 100 ∧
      guardarRegistro [] "CHEDDAR" 0 "Sin Bandeja" 0 0 100 "" 0 "t" =
        some ([] ++
          [{ producto := "CHEDDAR", cajas := 0, bandeja := "Sin Bandeja"
             cant_bandeja := 0, pallet := 0, bruto := 100
             neto := 100 - 0 - (0 : ℕ) * (2 / 5) - (0 : ℕ) * 0
             lote := "", hormas := 0, timestamp := "t" }])) ∧
    ((0 : ℚ) ≤ 0 ∧
      guardarRegistro [] "CHEDDAR" 0 "Sin Bandeja" 0 0 0 "" 0 "t" =
        some []) := by
  have hpc : PRODUCT_TO_WEIGHT.lookup "CHEDDAR" = some (2 / 5) := by
    simp [PRODUCT_TO_WEIGHT, List.lookup]
    norm_num
  have hpb : TRAY_WEIGHTS.lookup "Sin Bandeja" = some 0 := by
    simp [TRAY_WEIGHTS, List.lookup]
    norm_num
  have h1 := save_requires_positive_gross [] "CHEDDAR" 0 "Sin Bandeja" 0 0
    100 "" 0 "t" (2 / 5) 0 hpc hpb
  have h2 := save_requires_positive_gross [] "CHEDDAR" 0 "Sin Bandeja" 0 0
    0 "" 0 "t" (2 / 5) 0 hpc hpb
  exact ⟨⟨by norm_num, h1.1 (by norm_num)⟩, le_refl 0, h2.2 (le_refl 0)⟩

/-- C6: archiving a non-empty active record list produces an Expedition
whose cached total equals the sum of its records' net weights, with the
per-day sequence number in the name, and leaves the active list empty;
archiving an empty active list is a no-op that creates no Expedition. -/
theorem archive_spec :
    (∀ (e : List Expedicion) (d : String),
      archivarExpedicion e [] d = (e, [])) ∧
    (∀ (e : List Expedicion) (h : List Registro) (d : String), h ≠ [] →
      (archivarExpedicion e h d).2 = [] ∧
      (archivarExpedicion e h d).1 =
        e ++ [{ date := d
                name := d ++ " - Expedición " ++
                  toString ((e.filter (fun x => x.date == d)).length + 1)
                total := (h.map Registro.neto).sum
                records := h }]) := by
  constructor
  · intro e d
    simp [archivarExpedicion]
  · intro e h d hne
    have hni : h.isEmpty = false := by simpa [List.isEmpty_iff] using hne
    simp [archivarExpedicion, hni]

/-- C6 witness: archiving a one-record history on an empty expedition
list. -/
theorem archive_spec_witness :
    ([regUnit] : List Registro) ≠ [] ∧
    (archivarExpedicion [] [regUnit] "01/01/25").2 = [] ∧
    (archivarExpedicion [] [regUnit] "01/01/25").1 =
      [] ++ [{ date := "01/01/25"
               name := "01/01/25" ++ " - Expedición " ++
                 toString ((([] : List Expedicion).filter
                   (fun x => x.date == "01/01/25")).length + 1)
               total := ([regUnit].map Registro.neto).sum
               records := [regUnit] }] :=
  ⟨List.cons_ne_nil _ _,
   archive_spec.2 [] [regUnit] "01/01/25" (List.cons_ne_nil _ _)⟩

/-- C5: deleting (or editing) a record inside an archived expedition
leaves the cached `total` stale: the recomputation statement after the
tab3 delete call is unreachable because `eliminar_registro` triggers a
script rerun first, and the edit path has no recomputation at all.
Deleting the 1-kg record from a two-record expedition with stored total 3
leaves total 3, while the remaining records sum to 2; replacing the 1-kg
record by the 2-kg one leaves total 3, while the new records sum to 4. -/
theorem expedition_mutation_keeps_stale_total :
    borrarRegistroExpedicion
      [{ date := "01/01/25", name := "01/01/25 - Expedición 1", total := 3
         records := [regUnit, regDos] }] 0 0 =
      [{ date := "01/01/25", name := "01/01/25 - Expedición 1", total := 3
         records := [regDos] }] ∧
    (3 : ℚ) ≠ ([regDos].map Registro.neto).sum ∧
    editarRegistroExpedicion
      [{ date := "01/01/25", name := "01/01/25 - Expedición 1", total := 3
         records := [regUnit, regDos] }] 0 0 regDos =
      [{ date := "01/01/25", name := "01/01/25 - Expedición 1", total := 3
         records := [regDos, regDos] }] ∧
    (3 : ℚ) ≠ ([regDos, regDos].map Registro.neto).sum := by
  refine ⟨?_, ?_, ?_, ?_⟩
  · simp [borrarRegistroExpedicion, regUnit, regDos]
  · norm_num [regDos]
  · simp [editarRegistroExpedicion, editar_registro, regUnit, regDos]
  · norm_num [regDos]

/-- C2 counterexample: with the serial port open and a stop already
requested (shared `reading = false`), one polling cycle of the real-mode
loop leaves the state unchanged — in particular the port is still open,
refuting "the loop releases the device handle within one polling cycle"
on the normal-stop path. -/
theorem stop_does_not_release_port :
    stepReal "el05"
      { ser_open := true, exited := false
        shared := { peso := 0, reading := false, last_update := 5
                    status := .detenido } }
      (.frame [77, 48, 49, 13]) 6 =
      { ser_open := true, exited := false
        shared := { peso := 0, reading := false, last_update := 5
                    status := .detenido } } ∧
    ({ ser_open := true, exited := false
       shared := { peso := 0, reading := false, last_update := 5
                   status := .detenido } } : LoopState).ser_open = true := by
  constructor
  · simp [stepReal]
  · rfl

/-- C2 (amended): a stop request is observed within one polling cycle —
the paused loop neither writes the shared state (so it keeps showing
`is_acquiring = false` as written by the stopper) nor exits, but it
retains the open device handle; the handle is released, with
`is_acquiring = false` and a disconnected status published, on the
serial-I/O-error exit path. -/
theorem stop_observed_error_path_releases :
    (∀ (formato : String) (st : LoopState) (ev : SerialEvent) (now : ℕ),
      st.exited = false → st.shared.reading = false →
      stepReal formato st ev now = st) ∧
    (∀ (formato : String) (st : LoopState) (now : ℕ),
      st.exited = false → st.shared.reading = true →
      stepReal formato st .serialErr now =
        { ser_open := false, exited := true
          shared := write_realtime_data 0 false .desconectado now }) := by
  constructor
  · intro f st ev now h1 h2
    simp [stepReal, h1, h2]
  · intro f st now h1 h2
    simp [stepReal, h1, h2]

/-- C2 witness: a stopped cycle leaves a concrete open-port state
untouched, and a serial error from a concrete acquiring state closes the
port and publishes the disconnected stop state. -/
theorem stop_observed_error_path_releases_witness :
    stepReal "el05"
      { ser_open := true, exited := false
        shared := { peso := 3, reading := false, last_update := 5
                    status := .detenido } }
      (.frame [77, 48, 49, 13]) 6 =
      { ser_open := true, exited := false
        shared := { peso := 3, reading := false, last_update := 5
                    status := .detenido } } ∧
    stepReal "el05"
      { ser_open := true, exited := false
        shared := { peso := 7, reading := true, last_update := 5
                    status := .conectado } }
      .serialErr 6 =
      { ser_open := false, exited := true
        shared := write_realtime_data 0 false .desconectado 6 } :=
  ⟨stop_observed_error_path_releases.1 "el05"
      { ser_open := true, exited := false
        shared := { peso := 3, reading := false, last_update := 5
                    status := .detenido } } (.frame [77, 48, 49, 13]) 6 rfl rfl,
   stop_observed_error_path_releases.2 "el05"
      { ser_open := true, exited := false
        shared := { peso := 7, reading := true, last_update := 5
                    status := .conectado } } 6 rfl rfl⟩

/-- C3: the simulation branch does not realize the same publish behaviour
as the real-device branch.  A simulation tick from an acquiring shared
state publishes the synthetic weight with `reading = false` (the source
passes the literal `False` to `write_realtime_data` while its status text
still says "Leyendo (Simulación)"), after which the next simulation cycle
idles — acquisition halts after one tick with no stop requested — whereas
a real-mode cycle publishes every decoded reading with `reading = true`. -/
theorem sim_tick_publishes_not_acquiring :
    stepSim { peso := 0, reading := true, last_update := 0
              status := .iniciando } 100 1 =
      { peso := 100, reading := false, last_update := 1
        status := .leyendoSim } ∧
    (stepSim { peso := 0, reading := true, last_update := 0
               status := .iniciando } 100 1).reading = false ∧
    stepSim { peso := 100, reading := false, last_update := 1
              status := .leyendoSim } 200 2 =
      { peso := 100, reading := false, last_update := 1
        status := .leyendoSim } ∧
    (stepReal "el05"
      { ser_open := true, exited := false
        shared := { peso := 0, reading := true, last_update := 0
                    status := .conectado } }
      (.frame [77, 48, 48, 48, 48, 49, 48, 13]) 1).shared.reading = true := by
  refine ⟨?_, ?_, ?_, ?_⟩
  · simp [stepSim, write_realtime_data]
  · simp [stepSim, write_realtime_data]
  · simp [stepSim]
  · simp only [stepReal]
    norm_num
    cases hp : parse_el05_corregido [77, 48, 48, 48, 48, 49, 48, 13] <;>
      simp [hp, write_realtime_data]

end Balanza
